import Mathlib

/-!
Verification development for the `bevy-ffmpeg` media engine
(`src/frame_pool.rs`, `src/engine.rs`, `src/worker.rs`, `src/session.rs`).

The Rust code is shallowly embedded as executable Lean definitions:

* machine integers (`u32`, `i64`, `usize`) become `Nat`/`Int` (no arithmetic
  in the translated code can overflow on realistic media data, and none of
  the claims concerns wraparound);
* `f64` seconds values become `Rat` (the only float arithmetic reached by a
  claim is the final `microseconds as f64 / 1_000_000.0` division in
  `pts_in_seconds`, modelled as exact rational division);
* a crossbeam bounded channel of free buffers becomes a FIFO list plus a
  capacity; `recv`/`send` that would block are modelled as `none`;
* the worker thread is not scheduled: the contents of a track's message
  channel (`msg_rx`) are kept in the track as `pending_msgs`, the commands
  sent on `cmd_tx` are logged in `sent_cmds`, and the arrival of a worker
  message is the explicit model step `deliverMsg`;
* the fallible ffmpeg backend calls (`format::input`, `decoder`, `scaler`,
  `packet.read`, `send_packet`/`receive_frame`) are oracle parameters: a
  definition takes the backend call's outcome as an argument and embeds the
  Rust control flow around it.
-/

/-- Model of `ffmpeg::Rational`: a numerator/denominator pair (stream time bases). -/
structure Rational where
  num : Int
  den : Int
deriving DecidableEq, Repr

/-- Embedding of `session.rs`'s `VideoFrame`: geometry, pixel buffer, optional raw pts. -/
structure VideoFrame where
  width : Nat
  height : Nat
  data : List Nat
  pts : Option Int
deriving DecidableEq, Repr

/-!
## Frame pool (`src/frame_pool.rs`)

`FramePool` wraps one crossbeam `bounded(num_buffers)` channel used as a bag
of free buffers.  The channel is a FIFO: `send` appends at the tail, `recv`
takes from the head.  Both endpoints stay alive for the pool's lifetime, so
`recv` errors never occur; an empty channel makes `recv` block and a full
channel makes `send` block, modelled as `none`.
-/

/-- The free-buffer channel: FIFO contents plus the bound `num_buffers`. -/
structure FramePool where
  capacity : Nat
  free : List (List Nat)
deriving DecidableEq, Repr

/-- Embedding of `FramePool::new(num_buffers, frame_size)`: pre-send `num_buffers`
zero-filled buffers of `frame_size` bytes into the bounded channel. -/
def FramePool.new (num_buffers frame_size : Nat) : FramePool :=
  ⟨num_buffers, List.replicate num_buffers (List.replicate frame_size 0)⟩

/-- Embedding of `FramePool::get`: `free_rx.recv()`; `none` models a blocked `recv` on an
empty channel. -/
def FramePool.get (p : FramePool) : Option (List Nat × FramePool) :=
  match p.free with
  | [] => none
  | b :: rest => some (b, ⟨p.capacity, rest⟩)

/-- Embedding of `FramePool::recycle(buf)`: `free_tx.send(buf)`; `none` models a blocked
`send` on a full bounded channel.  No size or provenance check is made. -/
def FramePool.recycle (p : FramePool) (buf : List Nat) : Option FramePool :=
  if p.free.length < p.capacity then some ⟨p.capacity, p.free ++ [buf]⟩ else none

/-- The buffer handed out by the `k`-th of a run of consecutive `get` calls
(0-indexed), `none` if some earlier call would block. -/
def FramePool.nthGet (p : FramePool) : Nat → Option (List Nat)
  | 0 => (p.get).map (fun x => x.1)
  | k + 1 =>
    match p.get with
    | none => none
    | some (_, p') => p'.nthGet k

/-!
Pool usage discipline: the host and the worker interleave `get` and
`recycle` calls.  `PoolState` pairs the pool with the ledger of outstanding
buffers — exactly those returned by `get` and not yet passed back to
`recycle`.  A `recycle i data` step returns the `i`-th outstanding buffer;
`data` is its contents at return time (the scaler writes pixels in place,
which preserves the length).  Steps that would block, return a buffer that
is not outstanding, or change a buffer's length are not admissible (`none`).
-/

structure PoolState where
  pool : FramePool
  outstanding : List (List Nat)
deriving DecidableEq, Repr

inductive PoolOp where
  | get : PoolOp
  | recycle (i : Nat) (data : List Nat) : PoolOp
deriving DecidableEq, Repr

/-- One admissible pool interaction. -/
def stepPool (s : PoolState) : PoolOp → Option PoolState
  | .get =>
    match s.pool.get with
    | none => none
    | some (b, p') => some ⟨p', s.outstanding ++ [b]⟩
  | .recycle i data =>
    match s.outstanding[i]? with
    | none => none
    | some b =>
      if data.length = b.length then
        match s.pool.recycle data with
        | none => none
        | some p' => some ⟨p', s.outstanding.eraseIdx i⟩
      else none

/-- Run a sequence of pool interactions. -/
def runPool (s : PoolState) : List PoolOp → Option PoolState
  | [] => some s
  | op :: ops =>
    match stepPool s op with
    | none => none
    | some s' => runPool s' ops

/-!
## Worker protocol types (`src/worker.rs`)
-/

/-- Embedding of `WorkerCommand`: host-to-worker intent. -/
inductive WorkerCommand where
  | Load (path : String)
  | Play
  | Pause
  | Seek (seconds : Rat)
deriving DecidableEq, Repr

/-- Embedding of `WorkerMessage`: worker-to-engine facts. -/
inductive WorkerMessage where
  | Initialized (width height : Nat) (duration : Int) (pool : FramePool)
      (time_base : Rational) (start_pts : Int)
  | VideoFrame (frame : VideoFrame)
  | EndOfStream
  | Error (e : String)
deriving DecidableEq, Repr

/-!
## Engine (`src/engine.rs`)

`TrackId` and `TrackState` as in the source.  A `MediaTrack` carries, besides
the Rust fields, the two channel views described above: `pending_msgs` (the
not-yet-drained contents of `worker.msg_rx`, oldest first) and `sent_cmds`
(the log of `worker.cmd_tx.send` calls, oldest first).  The `VecDeque`
`video_queue` is a list whose head is the deque's front: `push_front` is
`cons`, `back`/`pop_back` work on the list's last element.
-/

structure TrackId where
  val : Nat
deriving DecidableEq, Repr

inductive TrackState where
  | Loading
  | Ready
  | Playing
  | Paused
  | Ended
  | Error (reason : String)
deriving DecidableEq, Repr

structure MediaTrack where
  desired_state : TrackState
  worker_state : TrackState
  loop_enabled : Bool
  time_base : Option Rational
  start_pts : Option Int
  frame_pool : Option FramePool
  size : Option (Nat × Nat)
  video_queue : List VideoFrame
  pending_msgs : List WorkerMessage
  sent_cmds : List WorkerCommand
deriving DecidableEq, Repr

structure MediaEngine where
  next_id : Nat
  tracks : List (TrackId × MediaTrack)
deriving DecidableEq, Repr

/-- Embedding of `self.tracks.get(&id)`. -/
def MediaEngine.getTrack (e : MediaEngine) (id : TrackId) : Option MediaTrack :=
  (e.tracks.find? (fun p => p.1 = id)).map (fun p => p.2)

/-- Embedding of `self.tracks.get_mut(&id)` followed by an in-place mutation `f`:
a missing id leaves the map untouched. -/
def MediaEngine.modifyTrack (e : MediaEngine) (id : TrackId)
    (f : MediaTrack → MediaTrack) : MediaEngine :=
  { e with tracks := e.tracks.map (fun p => if p.1 = id then (p.1, f p.2) else p) }

/-- Embedding of `MediaEngine::new()`. -/
def MediaEngine.new : MediaEngine :=
  { next_id := 0, tracks := [] }

/-- Embedding of `MediaEngine::create_track(path)`: spawn a worker (fresh channels), send
`Load(path)`, register the track under the next id. -/
def MediaEngine.create_track (e : MediaEngine) (path : String) :
    MediaEngine × TrackId :=
  let id : TrackId := ⟨e.next_id⟩
  let track : MediaTrack :=
    { desired_state := .Ready
      worker_state := .Loading
      loop_enabled := false
      time_base := none
      start_pts := none
      frame_pool := none
      size := none
      video_queue := []
      pending_msgs := []
      sent_cmds := [.Load path] }
  ({ next_id := e.next_id + 1, tracks := e.tracks ++ [(id, track)] }, id)

/-- Embedding of `MediaEngine::destroy_track(id)`. -/
def MediaEngine.destroy_track (e : MediaEngine) (id : TrackId) : MediaEngine :=
  { e with tracks := e.tracks.filter (fun p => ¬ p.1 = id) }

/-- Embedding of `MediaEngine::get_state(id)`. -/
def MediaEngine.get_state (e : MediaEngine) (id : TrackId) : Option TrackState :=
  (e.getTrack id).map (fun t => t.worker_state)

/-- Embedding of `MediaEngine::play(id)`. -/
def MediaEngine.play (e : MediaEngine) (id : TrackId) : MediaEngine :=
  e.modifyTrack id (fun t => { t with desired_state := .Playing })

/-- Embedding of `MediaEngine::pause(id)`. -/
def MediaEngine.pause (e : MediaEngine) (id : TrackId) : MediaEngine :=
  e.modifyTrack id (fun t => { t with desired_state := .Paused })

/-- Embedding of `MediaEngine::set_loop(id, enabled)`. -/
def MediaEngine.set_loop (e : MediaEngine) (id : TrackId) (enabled : Bool) :
    MediaEngine :=
  e.modifyTrack id (fun t => { t with loop_enabled := enabled })

/-- Embedding of `MediaEngine::seek(id, seconds)`: set the desired state to `Playing` and
forward a `Seek` command to the worker. -/
def MediaEngine.seek (e : MediaEngine) (id : TrackId) (seconds : Rat) :
    MediaEngine :=
  e.modifyTrack id (fun t =>
    { t with
      desired_state := .Playing
      sent_cmds := t.sent_cmds ++ [.Seek seconds] })

/-- Embedding of `MediaEngine::try_get_video_frame(id)`: `video_queue.pop_back()`; returns
the popped frame and the mutated engine. -/
def MediaEngine.try_get_video_frame (e : MediaEngine) (id : TrackId) :
    Option VideoFrame × MediaEngine :=
  match e.getTrack id with
  | none => (none, e)
  | some t =>
    (t.video_queue.getLast?,
     e.modifyTrack id (fun t => { t with video_queue := t.video_queue.dropLast }))

/-- Embedding of `MediaEngine::peek_video_frame(id)`: `video_queue.back()`. -/
def MediaEngine.peek_video_frame (e : MediaEngine) (id : TrackId) :
    Option VideoFrame :=
  match e.getTrack id with
  | none => none
  | some t => t.video_queue.getLast?

/-- Embedding of `MediaEngine::reycle_video_frame_buffer(id, buffer)` (sic): push the
buffer back into the track's pool if one exists; `pool.recycle(buffer).ok()`
discards the outcome, and a send that would block is left unmodelled (it
cannot occur under the pool discipline, see `runPool`). -/
def MediaEngine.reycle_video_frame_buffer (e : MediaEngine) (id : TrackId)
    (buffer : List Nat) : MediaEngine :=
  match e.getTrack id with
  | none => e
  | some t =>
    match t.frame_pool with
    | none => e
    | some pool =>
      match pool.recycle buffer with
      | none => e
      | some pool' =>
        e.modifyTrack id (fun t => { t with frame_pool := some pool' })

/-!
## Timestamp conversion (`MediaEngine::pts_in_seconds`)

`relative_pts.rescale(time_base, TIME_BASE)` is ffmpeg's
`av_rescale_q(a, bq, cq) = av_rescale_rnd(a, bq.num * cq.den,
cq.num * bq.den, AV_ROUND_NEAR_INF)`: multiply by `b / c` rounding half away
from zero.  `TIME_BASE` is `1 / 1_000_000` (microseconds).  The C code
computes `(a * b + c / 2) / c` on a non-negative `a` (negating first if
`a < 0`), with C truncating division; on the non-negative operands reached
here it coincides with Lean's `Int` division.
-/

/-- Value of `AV_TIME_BASE_Q`, that is `1 / 1_000_000`. -/
def TIME_BASE : Rational := ⟨1, 1000000⟩

/-- Embedding of `av_rescale_rnd(a, b, c, AV_ROUND_NEAR_INF)`. -/
def av_rescale_rnd_near (a b c : Int) : Int :=
  if a < 0 then -(((-a) * b + c / 2) / c) else (a * b + c / 2) / c

/-- Embedding of `av_rescale_q(a, bq, cq)` with near rounding. -/
def av_rescale_q (a : Int) (bq cq : Rational) : Int :=
  av_rescale_rnd_near a (bq.num * cq.den) (cq.num * bq.den)

/-- Embedding of `MediaEngine::pts_in_seconds(id, pts)`: `(pts - start_pts?)` rescaled
from the track's time base to microseconds, divided by `1_000_000.0` (the
`f64` division modelled as exact rational division). -/
def MediaEngine.pts_in_seconds (e : MediaEngine) (id : TrackId) (pts : Int) :
    Option Rat :=
  match e.getTrack id with
  | some track =>
    match track.start_pts with
    | none => none
    | some s =>
      match track.time_base with
      | none => none
      | some tb =>
        some ((av_rescale_q (pts - s) tb TIME_BASE : Rat) / 1000000)
  | none => none

/-- Embedding of `MediaEngine::get_size(id)`. -/
def MediaEngine.get_size (e : MediaEngine) (id : TrackId) :
    Option (Nat × Nat) :=
  (e.getTrack id).bind (fun t => t.size)

/-!
## `MediaEngine::update`

Per track: drain every pending worker message in arrival order, then
reconcile `worker_state` against `desired_state`.
-/

/-- One arm of the `match msg` in `update`'s drain loop. -/
def processMessage (t : MediaTrack) : WorkerMessage → MediaTrack
  | .Initialized width height _duration pool time_base start_pts =>
    { t with
      worker_state := .Ready
      frame_pool := some pool
      size := some (width, height)
      time_base := some time_base
      start_pts := some start_pts }
  | .VideoFrame frame => { t with video_queue := frame :: t.video_queue }
  | .Error e => { t with worker_state := .Error e }
  | .EndOfStream =>
    if t.loop_enabled then
      { t with
        sent_cmds := t.sent_cmds ++ [.Seek 0]
        worker_state := .Playing }
    else { t with worker_state := .Ended }

/-- The `while let Ok(msg) = try_recv()` drain loop: process all pending
messages oldest-first and empty the channel. -/
def drainMessages (t : MediaTrack) : MediaTrack :=
  { t.pending_msgs.foldl processMessage t with pending_msgs := [] }

/-- The desired-vs-actual reconciliation after the drain loop. -/
def reconcile (t : MediaTrack) : MediaTrack :=
  if t.worker_state = t.desired_state then t
  else
    match t.desired_state with
    | .Playing =>
      { t with sent_cmds := t.sent_cmds ++ [.Play], worker_state := .Playing }
    | .Paused =>
      { t with sent_cmds := t.sent_cmds ++ [.Pause], worker_state := .Paused }
    | _ => t

/-- The body of `update`'s per-track loop. -/
def updateTrack (t : MediaTrack) : MediaTrack :=
  reconcile (drainMessages t)

/-- Embedding of `MediaEngine::update()`. -/
def MediaEngine.update (e : MediaEngine) : MediaEngine :=
  { e with tracks := e.tracks.map (fun p => (p.1, updateTrack p.2)) }

/-- Model step (not an engine method): the worker thread's `msg_tx.send(m)`
lands `m` at the tail of the track's message channel. -/
def deliverMsg (e : MediaEngine) (id : TrackId) (m : WorkerMessage) :
    MediaEngine :=
  e.modifyTrack id (fun t => { t with pending_msgs := t.pending_msgs ++ [m] })

/-!
## Worker (`src/worker.rs`) and session loading (`src/session.rs`)

`load_media_session` opens the input and, when a best video stream exists,
builds the decoder, the scaler and the stream geometry.  Each fallible
backend call is an oracle: `LoadOutcome` enumerates the outcomes the Rust
control flow distinguishes — `format::input` failing, no video stream
(which is a SUCCESS with `video: None`), decoder or scaler construction
failing, or full success with geometry.
-/

/-- The geometry of `session.rs`'s `VideoState` (the opaque decoder, scaler
and scratch frame handles are omitted). -/
structure VideoState where
  stream_index : Nat
  width : Nat
  height : Nat
  duration : Int
  time_base : Rational
  start_pts : Int
deriving DecidableEq, Repr

/-- Embedding of `session.rs`'s `MediaSession` (the input context handle is omitted). -/
structure MediaSession where
  video : Option VideoState
deriving DecidableEq, Repr

/-- Oracle for the backend calls inside `load_media_session`. -/
inductive LoadOutcome where
  | openErr (e : String)
  | noVideoStream
  | videoSetupErr (e : String)
  | okVideo (v : VideoState)
deriving DecidableEq, Repr

/-- Embedding of `load_media_session(source)`: `Err` when `format::input` or the
decoder/scaler construction fails; `Ok` with `video = none` when no video
stream exists; `Ok` with geometry otherwise. -/
def load_media_session : LoadOutcome → Except String MediaSession
  | .openErr e => .error e
  | .noVideoStream => .ok ⟨none⟩
  | .videoSetupErr e => .error e
  | .okVideo v => .ok ⟨some v⟩

/-- The worker loop's mutable state: `session`, `frame_pool`, `playing`. -/
structure WorkerState where
  session : Option MediaSession
  frame_pool : Option FramePool
  playing : Bool
deriving DecidableEq, Repr

/-- Initial state of `worker_loop`. -/
def WorkerState.init : WorkerState :=
  { session := none, frame_pool := none, playing := false }

/-- One arm of `worker_loop`'s command drain: returns the new state and the
messages sent on `msg_tx`, in send order.  `Load` takes the
`load_media_session` oracle outcome. -/
def handleCommand (st : WorkerState) (loadRes : LoadOutcome) :
    WorkerCommand → WorkerState × List WorkerMessage
  | .Load _path =>
    match load_media_session loadRes with
    | .ok s =>
      match s.video with
      | some video =>
        let pool := FramePool.new 10 (video.width * video.height * 4)
        ({ st with session := some s, frame_pool := some pool },
         [.Initialized video.width video.height video.duration pool
            video.time_base video.start_pts])
      | none => ({ st with session := some s }, [])
    | .error e => (st, [.Error e])
  | .Play => ({ st with playing := true }, [])
  | .Pause => ({ st with playing := false }, [])
  | .Seek _val => (st, [])

/-- Oracle for `read_packet`: a packet, end of input, or a read error.
(`read_packet` maps the backend's `Eof` error to `Ok(Packet::Eof)` and
passes other errors through.) -/
inductive ReadOutcome where
  | packet
  | eof
  | err (e : String)
deriving DecidableEq, Repr

/-- The `if playing { ... }` decode body of `worker_loop`, for one loop
iteration.  `readRes` is the `read_packet` outcome; `procRes` is the result
`process_packet` would return on that packet (a list of produced frames, or
a decode error); `flushRes` likewise for `flush` at end of input.  Returns
the new state and the messages sent on `msg_tx`, in send order. -/
def decodeBody (st : WorkerState) (readRes : ReadOutcome)
    (procRes : Except String (List VideoFrame))
    (flushRes : Except String (List VideoFrame)) :
    WorkerState × List WorkerMessage :=
  if st.playing ∧ st.session.isSome ∧ st.frame_pool.isSome then
    match readRes with
    | .packet =>
      match procRes with
      | .ok outputs => (st, outputs.map WorkerMessage.VideoFrame)
      | .error _ => (st, [])
    | .eof =>
      let flushed :=
        match flushRes with
        | .ok outputs => outputs.map WorkerMessage.VideoFrame
        | .error _ => []
      ({ st with playing := false }, flushed ++ [.EndOfStream])
    | .err e => (st, [.Error e])
  else (st, [])

/-!
## Concrete instances used by witnesses and counterexamples
-/

/-- Whether a worker message is an `Initialized` message. -/
def WorkerMessage.isInitialized : WorkerMessage → Bool
  | .Initialized _ _ _ _ _ _ => true
  | _ => false

/-- A first sample frame (the earlier-produced one). -/
def exFrame1 : VideoFrame := ⟨2, 2, [], some 10⟩

/-- A second sample frame (the later-produced one). -/
def exFrame2 : VideoFrame := ⟨2, 2, [], some 20⟩

/-- An engine holding one freshly created track. -/
def exEngine0 : MediaEngine := (MediaEngine.new.create_track "video.mp4").1

/-- The id of the track in `exEngine0`. -/
def exId : TrackId := ⟨0⟩

/-- The track registered by `exEngine0`'s `create_track`. -/
def exTrack0 : MediaTrack :=
  { desired_state := .Ready
    worker_state := .Loading
    loop_enabled := false
    time_base := none
    start_pts := none
    frame_pool := none
    size := none
    video_queue := []
    pending_msgs := []
    sent_cmds := [.Load "video.mp4"] }

/-- Like `exTrack0` but with looping enabled. -/
def exTrackLoopOn : MediaTrack := { exTrack0 with loop_enabled := true }

/-- The engine after the worker of `exEngine0`'s track reported a load
failure and one `update()` drained it. -/
def exEngineErr : MediaEngine :=
  (deliverMsg exEngine0 exId (.Error "no video stream")).update

/-- The engine after the worker produced `exFrame1` then `exFrame2`
(messages delivered, not yet drained). -/
def exEngineQpre : MediaEngine :=
  deliverMsg (deliverMsg exEngine0 exId (.VideoFrame exFrame1)) exId
    (.VideoFrame exFrame2)

/-- The engine `exEngineQpre` after one `update()` drained both frames. -/
def exEngineQ : MediaEngine := exEngineQpre.update

/-- A sample 10-buffer pool for 2x2 RGBA frames. -/
def exPool : FramePool := FramePool.new 10 16

/-- A sample stream time base of 1/3 second per pts unit. -/
def exTb : Rational := ⟨1, 3⟩

/-- The engine after the worker of `exEngine0`'s track initialized with
geometry 2x2, time base `exTb` and start pts 0, and `update()` drained it. -/
def exEngineGeom : MediaEngine :=
  (deliverMsg exEngine0 exId (.Initialized 2 2 0 exPool exTb 0)).update

/-- The track inside `exEngineGeom`. -/
def exTrackGeom : MediaTrack :=
  { exTrack0 with
    worker_state := .Ready
    frame_pool := some exPool
    size := some (2, 2)
    time_base := some exTb
    start_pts := some 0 }

/-- A worker state with a loaded video session, a pool, and decoding on. -/
def exWorkerPlaying : WorkerState :=
  { session := some ⟨some ⟨0, 2, 2, 100, exTb, 0⟩⟩
    frame_pool := some exPool
    playing := true }

/-- Result state of the sample pool trace used by the `runPool` witness. -/
def exPoolTraceResult : PoolState := ⟨⟨2, [[0, 0, 0], [5, 6, 7]]⟩, []⟩

/-- The two-buffer pool after one `get`. -/
def exPoolP1 : FramePool := ⟨2, [[0, 0, 0]]⟩

/-- The pool `exPoolP1` after recycling the wrong-size buffer `[9]`. -/
def exPoolP2 : FramePool := ⟨2, [[0, 0, 0], [9]]⟩

/-- Predicate of claim C2's pool invariant: fixed capacity, conservation of
the buffer count, and every live buffer keeps the construction-time size. -/
def PoolInv (n size : Nat) (s : PoolState) : Prop :=
  s.pool.capacity = n ∧
  s.pool.free.length + s.outstanding.length = n ∧
  ∀ b ∈ s.pool.free ++ s.outstanding, b.length = size

/-!
## Helper lemmas
-/

/-- Looking a key up after mutating that key's entry sees the mutation. -/
theorem find?_map_modify (l : List (TrackId × MediaTrack)) (id : TrackId)
    (f : MediaTrack → MediaTrack) :
    ((l.map (fun p => if p.1 = id then (p.1, f p.2) else p)).find?
        (fun p => p.1 = id)).map (fun p => p.2)
      = ((l.find? (fun p => p.1 = id)).map (fun p => p.2)).map f := by
  induction l with
  | nil => rfl
  | cons p l ih =>
    by_cases h : p.1 = id
    · simp only [List.map_cons, if_pos h]
      rw [List.find?_cons_of_pos _ (by simp [h]),
        List.find?_cons_of_pos _ (by simp [h])]
      rfl
    · simp only [List.map_cons, if_neg h]
      rw [List.find?_cons_of_neg _ (by simp [h]),
        List.find?_cons_of_neg _ (by simp [h])]
      exact ih

/-- Looking a key up after mutating every entry's value sees the mutation. -/
theorem find?_map_all (l : List (TrackId × MediaTrack)) (id : TrackId)
    (g : MediaTrack → MediaTrack) :
    ((l.map (fun p => (p.1, g p.2))).find? (fun p => p.1 = id)).map
        (fun p => p.2)
      = ((l.find? (fun p => p.1 = id)).map (fun p => p.2)).map g := by
  induction l with
  | nil => rfl
  | cons p l ih =>
    by_cases h : p.1 = id
    · simp only [List.map_cons]
      rw [List.find?_cons_of_pos _ (by simp [h]),
        List.find?_cons_of_pos _ (by simp [h])]
      rfl
    · simp only [List.map_cons]
      rw [List.find?_cons_of_neg _ (by simp [h]),
        List.find?_cons_of_neg _ (by simp [h])]
      exact ih

/-- Reading the modified track of `modifyTrack` yields the mutated value. -/
theorem MediaEngine.getTrack_modifyTrack (e : MediaEngine) (id : TrackId)
    (f : MediaTrack → MediaTrack) :
    (e.modifyTrack id f).getTrack id = (e.getTrack id).map f :=
  find?_map_modify e.tracks id f

/-- Mutating an absent id is the identity (the `None => {}` arms). -/
theorem MediaEngine.modifyTrack_not_found (e : MediaEngine) (id : TrackId)
    (f : MediaTrack → MediaTrack) (h : e.getTrack id = none) :
    e.modifyTrack id f = e := by
  have hfind : e.tracks.find? (fun p => p.1 = id) = none := by
    unfold MediaEngine.getTrack at h
    cases hf : e.tracks.find? (fun p => p.1 = id) with
    | none => rfl
    | some p => rw [hf] at h; simp at h
  have hall := List.find?_eq_none.mp hfind
  have hmap : ∀ (l : List (TrackId × MediaTrack)),
      (∀ p ∈ l, ¬ p.1 = id) →
      l.map (fun p => if p.1 = id then (p.1, f p.2) else p) = l := by
    intro l
    induction l with
    | nil => intro _; rfl
    | cons q l ih =>
      intro hq
      have h1 : ¬ q.1 = id := hq q (by simp)
      simp only [List.map_cons, if_neg h1, List.cons.injEq, true_and]
      exact ih (fun p hp => hq p (by simp [hp]))
  cases e with
  | mk nid tracks =>
    unfold MediaEngine.modifyTrack
    simp only [MediaEngine.mk.injEq, true_and]
    exact hmap tracks (fun p hp => by simpa using hall p hp)

/-- Reading any track after `update()` sees that track updated. -/
theorem MediaEngine.getTrack_update (e : MediaEngine) (id : TrackId) :
    e.update.getTrack id = (e.getTrack id).map updateTrack :=
  find?_map_all e.tracks id updateTrack

/-- Claim C10 (confirmed): for a `TrackId` absent from the registry, every
accessor (`get_state`, `get_size`, `pts_in_seconds`, `try_get_video_frame`,
`peek_video_frame`) returns `none`, and every mutator (`play`, `pause`,
`set_loop`, `seek`, `reycle_video_frame_buffer`) leaves the engine — and so
every command log — entirely unchanged. -/
theorem claim10_unknown_id_safe_noop (e : MediaEngine) (id : TrackId)
    (h : e.getTrack id = none) :
    e.get_state id = none ∧
    e.get_size id = none ∧
    (∀ pts, e.pts_in_seconds id pts = none) ∧
    e.try_get_video_frame id = (none, e) ∧
    e.peek_video_frame id = none ∧
    e.play id = e ∧
    e.pause id = e ∧
    (∀ b, e.set_loop id b = e) ∧
    (∀ s, e.seek id s = e) ∧
    (∀ buf, e.reycle_video_frame_buffer id buf = e) := by
  refine ⟨?_, ?_, ?_, ?_, ?_, ?_, ?_, ?_, ?_, ?_⟩
  · simp [MediaEngine.get_state, h]
  · simp [MediaEngine.get_size, h]
  · intro pts; simp [MediaEngine.pts_in_seconds, h]
  · simp [MediaEngine.try_get_video_frame, h]
  · simp [MediaEngine.peek_video_frame, h]
  · exact e.modifyTrack_not_found id _ h
  · exact e.modifyTrack_not_found id _ h
  · intro b; exact e.modifyTrack_not_found id _ h
  · intro s; exact e.modifyTrack_not_found id _ h
  · intro buf; simp [MediaEngine.reycle_video_frame_buffer, h]

/-- Witness for C10 at a concrete engine: the one-track engine `exEngine0`
holds no track with id 7, so all operations are safe no-ops there. -/
theorem claim10_witness :
    exEngine0.get_state ⟨7⟩ = none ∧
    exEngine0.play ⟨7⟩ = exEngine0 ∧
    exEngine0.seek ⟨7⟩ 2 = exEngine0 := by
  have h := claim10_unknown_id_safe_noop exEngine0 ⟨7⟩ (by decide)
  exact ⟨h.1, h.2.2.2.2.2.1, h.2.2.2.2.2.2.2.2.1 2⟩

/-- Claim C7 (confirmed): on a known track, `seek(id, s)` sets the track's
`desired_state` to `Playing` and appends a `Seek(s)` command to the worker's
command channel, touching nothing else; and the worker's handling of
`Seek(s)` is a no-op: its session, playing flag and frame pool are
unchanged and no message is emitted. -/
theorem claim7_seek_forwards_and_worker_noop (e : MediaEngine) (id : TrackId)
    (t : MediaTrack) (s : Rat) (ht : e.getTrack id = some t) :
    (e.seek id s).getTrack id =
      some { t with
              desired_state := .Playing
              sent_cmds := t.sent_cmds ++ [.Seek s] } ∧
    (∀ st lr v, handleCommand st lr (.Seek v) = (st, [])) := by
  constructor
  · rw [MediaEngine.seek, MediaEngine.getTrack_modifyTrack, ht]
    rfl
  · intro st lr v; rfl

/-- Witness for C7 at a concrete engine and seek position. -/
theorem claim7_witness :
    (exEngine0.seek exId 5).getTrack exId =
      some { exTrack0 with
              desired_state := .Playing
              sent_cmds := exTrack0.sent_cmds ++ [.Seek 5] } ∧
    handleCommand WorkerState.init .noVideoStream (.Seek 5)
      = (WorkerState.init, []) := by
  have h := claim7_seek_forwards_and_worker_noop exEngine0 exId exTrack0 5
    (by decide)
  exact ⟨h.1, h.2 WorkerState.init .noVideoStream 5⟩

/-- Reconciliation with a non-actionable desired state is the identity (the
catch-all arm of `update`'s match). -/
theorem reconcile_not_actionable (u : MediaTrack)
    (hd1 : u.desired_state ≠ .Playing) (hd2 : u.desired_state ≠ .Paused) :
    reconcile u = u := by
  unfold reconcile
  split
  · rfl
  · split <;> simp_all

/-- Updating a track that sits in `Error` with an empty message channel and
a non-actionable desired state changes nothing that claim C1 observes. -/
theorem updateTrack_error_stuck (t : MediaTrack) (r : String)
    (hw : t.worker_state = .Error r) (hp : t.pending_msgs = [])
    (hd1 : t.desired_state ≠ .Playing) (hd2 : t.desired_state ≠ .Paused) :
    (updateTrack t).worker_state = .Error r ∧
    (updateTrack t).pending_msgs = [] ∧
    (updateTrack t).desired_state = t.desired_state := by
  have h1 : (drainMessages t).worker_state = t.worker_state := by
    show (t.pending_msgs.foldl processMessage t).worker_state = _
    rw [hp, List.foldl_nil]
  have h2 : (drainMessages t).desired_state = t.desired_state := by
    show (t.pending_msgs.foldl processMessage t).desired_state = _
    rw [hp, List.foldl_nil]
  have h3 : (drainMessages t).pending_msgs = [] := rfl
  have hrec : reconcile (drainMessages t) = drainMessages t :=
    reconcile_not_actionable _ (by rw [h2]; exact hd1) (by rw [h2]; exact hd2)
  unfold updateTrack
  rw [hrec]
  exact ⟨h1.trans hw, h3, h2⟩

/-- Claim C1 (corrected): `play(id)` by itself never changes `worker_state`,
and an `Error` state survives any number of `update()` calls as long as the
desired state stays non-actionable (neither `Playing` nor `Paused`, as after
a load failure, where it is still `Ready`) and no further worker message
arrives.  The original claim fails because `update()`'s reconciliation
overwrites any `worker_state` (including `Error`) once `desired_state` is
`Playing` — see the counterexample. -/
theorem claim1_error_persistence (e : MediaEngine) (id : TrackId)
    (t : MediaTrack) (r : String) (ht : e.getTrack id = some t)
    (hw : t.worker_state = .Error r) (hp : t.pending_msgs = [])
    (hd1 : t.desired_state ≠ .Playing) (hd2 : t.desired_state ≠ .Paused) :
    (∀ n, ((MediaEngine.update)^[n] e).get_state id = some (.Error r)) ∧
    (e.play id).get_state id = some (.Error r) := by
  constructor
  · intro n
    induction n generalizing e t with
    | zero =>
      simp only [Function.iterate_zero, id_eq]
      rw [MediaEngine.get_state, ht]
      simp [hw]
    | succ n ih =>
      rw [Function.iterate_succ_apply]
      have ht' : (e.update).getTrack id = some (updateTrack t) := by
        rw [MediaEngine.getTrack_update, ht]
        rfl
      have hstuck := updateTrack_error_stuck t r hw hp hd1 hd2
      exact ih e.update (updateTrack t) ht' hstuck.1 hstuck.2.1
        (hstuck.2.2 ▸ hd1) (hstuck.2.2 ▸ hd2)
  · rw [MediaEngine.play, MediaEngine.get_state, MediaEngine.getTrack_modifyTrack,
      ht]
    simp [hw]

/-- Witness for C1 at the concrete engine whose track reported a load
failure: two further updates and a lone `play` both leave the state at
`Error`. -/
theorem claim1_witness :
    ((MediaEngine.update)^[2] exEngineErr).get_state exId
        = some (.Error "no video stream") ∧
    (exEngineErr.play exId).get_state exId = some (.Error "no video stream") := by
  have h := claim1_error_persistence exEngineErr exId
    { exTrack0 with worker_state := .Error "no video stream" }
    "no video stream" (by decide) (by decide) (by decide) (by decide)
    (by decide)
  exact ⟨h.1 2, h.2⟩

/-- Counterexample to C1 as stated: on the engine whose track's worker
reported `Error("no video stream")`, the host sequence `play(id)` then
`update()` (with no further worker message) moves `worker_state` to
`Playing`, so `get_state` no longer returns the `Error`. -/
theorem claim1_cex :
    exEngineErr.get_state exId = some (.Error "no video stream") ∧
    ((exEngineErr.play exId).update).get_state exId = some .Playing ∧
    TrackState.Playing ≠ TrackState.Error "no video stream" := by
  refine ⟨by decide, by decide, by decide⟩

/-- Draining a run of `VideoFrame` messages prepends the frames: newest at
the deque's front, oldest at its back. -/
theorem foldl_videoFrames (fs : List VideoFrame) (t : MediaTrack) :
    (fs.map WorkerMessage.VideoFrame).foldl processMessage t
      = { t with video_queue := fs.reverse ++ t.video_queue } := by
  induction fs generalizing t with
  | nil => simp
  | cons f fs ih =>
    simp only [List.map_cons, List.foldl_cons]
    rw [show processMessage t (.VideoFrame f)
        = { t with video_queue := f :: t.video_queue } from rfl, ih]
    simp [List.append_assoc]

/-- Reconciliation never touches the video queue. -/
theorem reconcile_video_queue (u : MediaTrack) :
    (reconcile u).video_queue = u.video_queue := by
  unfold reconcile
  split
  · rfl
  · split <;> rfl

/-- Claim C3 (corrected): with frames appended by `update()` in production
order, `try_get_video_frame` pops the OLDEST queued frame (the first
produced, `fs.head?`), not the newest: production `push_front`s while
consumption `pop_back`s, so the deque is a FIFO.  `peek_video_frame`
returns that same oldest frame without removing it; on an empty queue
(`fs = []`) or an unknown track both return `none`. -/
theorem claim3_fifo_oldest_first (e : MediaEngine) (id j : TrackId)
    (t : MediaTrack) (fs : List VideoFrame)
    (ht : e.getTrack id = some t) (hq : t.video_queue = [])
    (hp : t.pending_msgs = fs.map WorkerMessage.VideoFrame)
    (hj : e.getTrack j = none) :
    ((e.update).try_get_video_frame id).1 = fs.head? ∧
    (e.update).peek_video_frame id = fs.head? ∧
    (((e.update).try_get_video_frame id).2.getTrack id).map
        (fun u => u.video_queue) = some fs.reverse.dropLast ∧
    (e.try_get_video_frame j).1 = none ∧
    e.peek_video_frame j = none := by
  have hqueue : (updateTrack t).video_queue = fs.reverse := by
    unfold updateTrack
    rw [reconcile_video_queue]
    show (t.pending_msgs.foldl processMessage t).video_queue = _
    rw [hp, foldl_videoFrames]
    simp [hq]
  have ht' : (e.update).getTrack id = some (updateTrack t) := by
    rw [MediaEngine.getTrack_update, ht]
    rfl
  refine ⟨?_, ?_, ?_, ?_, ?_⟩
  · rw [MediaEngine.try_get_video_frame, ht']
    simp [hqueue, List.getLast?_reverse]
  · rw [MediaEngine.peek_video_frame, ht']
    simp [hqueue, List.getLast?_reverse]
  · rw [MediaEngine.try_get_video_frame, ht']
    simp only [MediaEngine.getTrack_modifyTrack, ht', Option.map_some']
    simp [hqueue]
  · rw [MediaEngine.try_get_video_frame, hj]
  · rw [MediaEngine.peek_video_frame, hj]

/-- Witness for C3: frames produced in order `exFrame1`, `exFrame2` are
consumed oldest-first, and an unknown id yields `none`. -/
theorem claim3_witness :
    ((exEngineQpre.update).try_get_video_frame exId).1 = some exFrame1 ∧
    (exEngineQpre.update).peek_video_frame exId = some exFrame1 ∧
    (exEngineQpre.try_get_video_frame ⟨9⟩).1 = none := by
  have h := claim3_fifo_oldest_first exEngineQpre exId ⟨9⟩
    { exTrack0 with
        pending_msgs := [.VideoFrame exFrame1, .VideoFrame exFrame2] }
    [exFrame1, exFrame2] (by decide) (by decide) (by decide) (by decide)
  exact ⟨h.1, h.2.1, h.2.2.2.1⟩

/-- Counterexample to C3 as stated: after the worker produced `exFrame1`
then `exFrame2` (so `exFrame2` is the newest), both `try_get_video_frame`
and `peek_video_frame` return `exFrame1`, the oldest — not the newest. -/
theorem claim3_cex :
    (exEngineQ.try_get_video_frame exId).1 = some exFrame1 ∧
    exEngineQ.peek_video_frame exId = some exFrame1 ∧
    exFrame1 ≠ exFrame2 := by
  refine ⟨by decide, by decide, by decide⟩

/-- Unfolding of `processMessage` at an `EndOfStream` message. -/
theorem processMessage_endOfStream (t : MediaTrack) :
    processMessage t .EndOfStream
      = if t.loop_enabled then
          { t with
            sent_cmds := t.sent_cmds ++ [.Seek 0]
            worker_state := .Playing }
        else { t with worker_state := .Ended } := rfl

/-- Processing one worker message never flips the looping flag. -/
theorem processMessage_loop_enabled (t : MediaTrack) (m : WorkerMessage) :
    (processMessage t m).loop_enabled = t.loop_enabled := by
  cases m <;> try rfl
  rw [processMessage_endOfStream]
  split <;> rfl

/-- Draining any message list never flips the looping flag. -/
theorem foldl_loop_enabled (ms : List WorkerMessage) (t : MediaTrack) :
    (ms.foldl processMessage t).loop_enabled = t.loop_enabled := by
  induction ms generalizing t with
  | nil => rfl
  | cons m ms ih => rw [List.foldl_cons, ih, processMessage_loop_enabled]

/-- Claim C5 (confirmed): when `update()`'s drain reaches an `EndOfStream`
message, a track with looping enabled gets a `Seek(0.0)` command sent to
its worker and `worker_state := Playing`; with looping disabled it gets
`worker_state := Ended` and no command.  (`ms` is the arbitrary prefix of
messages drained before the `EndOfStream`.) -/
theorem claim5_end_of_stream_branch (u : MediaTrack) (ms : List WorkerMessage)
    (hpend : u.pending_msgs = ms ++ [.EndOfStream]) :
    (u.loop_enabled = true →
      (drainMessages u).worker_state = .Playing ∧
      (drainMessages u).sent_cmds
        = (ms.foldl processMessage u).sent_cmds ++ [.Seek 0]) ∧
    (u.loop_enabled = false →
      (drainMessages u).worker_state = .Ended ∧
      (drainMessages u).sent_cmds = (ms.foldl processMessage u).sent_cmds) := by
  have hfold : u.pending_msgs.foldl processMessage u
      = processMessage (ms.foldl processMessage u) .EndOfStream := by
    rw [hpend, List.foldl_append, List.foldl_cons, List.foldl_nil]
  have hle : (ms.foldl processMessage u).loop_enabled = u.loop_enabled :=
    foldl_loop_enabled ms u
  have hws : (drainMessages u).worker_state
      = (processMessage (ms.foldl processMessage u) .EndOfStream).worker_state := by
    show (u.pending_msgs.foldl processMessage u).worker_state = _
    rw [hfold]
  have hsc : (drainMessages u).sent_cmds
      = (processMessage (ms.foldl processMessage u) .EndOfStream).sent_cmds := by
    show (u.pending_msgs.foldl processMessage u).sent_cmds = _
    rw [hfold]
  constructor
  · intro h
    have hpm : processMessage (ms.foldl processMessage u) .EndOfStream
        = { ms.foldl processMessage u with
            sent_cmds := (ms.foldl processMessage u).sent_cmds ++ [.Seek 0]
            worker_state := .Playing } := by
      rw [processMessage_endOfStream, if_pos (hle.trans h)]
    exact ⟨by rw [hws, hpm], by rw [hsc, hpm]⟩
  · intro h
    have hpm : processMessage (ms.foldl processMessage u) .EndOfStream
        = { ms.foldl processMessage u with worker_state := .Ended } := by
      rw [processMessage_endOfStream,
        if_neg (by rw [hle.trans h]; exact Bool.false_ne_true)]
    exact ⟨by rw [hws, hpm], by rw [hsc, hpm]⟩

/-- Witness for C5 on concrete tracks with looping on and off. -/
theorem claim5_witness :
    (drainMessages
        { exTrackLoopOn with pending_msgs := [.EndOfStream] }).worker_state
      = .Playing ∧
    (drainMessages
        { exTrackLoopOn with pending_msgs := [.EndOfStream] }).sent_cmds
      = exTrackLoopOn.sent_cmds ++ [.Seek 0] ∧
    (drainMessages
        { exTrack0 with pending_msgs := [.EndOfStream] }).worker_state
      = .Ended := by
  have h1 := claim5_end_of_stream_branch
    { exTrackLoopOn with pending_msgs := [.EndOfStream] } [] (by decide)
  have h2 := claim5_end_of_stream_branch
    { exTrack0 with pending_msgs := [.EndOfStream] } [] (by decide)
  exact ⟨(h1.1 rfl).1, (h1.1 rfl).2, (h2.2 rfl).1⟩

/-- Processing a non-`Initialized` message never moves a track to `Ready`. -/
theorem processMessage_not_ready (t : MediaTrack) (m : WorkerMessage)
    (hw : t.worker_state ≠ .Ready) (hm : m.isInitialized = false) :
    (processMessage t m).worker_state ≠ .Ready := by
  cases m with
  | Initialized w h d p tb s => simp [WorkerMessage.isInitialized] at hm
  | VideoFrame f => exact hw
  | Error e => simp [processMessage]
  | EndOfStream =>
    rw [processMessage_endOfStream]
    split <;> simp

/-- Draining only non-`Initialized` messages never moves a track to
`Ready`. -/
theorem foldl_not_ready (ms : List WorkerMessage) (t : MediaTrack)
    (hw : t.worker_state ≠ .Ready)
    (hm : ∀ m ∈ ms, m.isInitialized = false) :
    (ms.foldl processMessage t).worker_state ≠ .Ready := by
  induction ms generalizing t with
  | nil => exact hw
  | cons m ms ih =>
    rw [List.foldl_cons]
    exact ih (processMessage t m)
      (processMessage_not_ready t m hw (hm m (by simp)))
      (fun m' hm' => hm m' (by simp [hm']))

/-- Reconciliation never moves a track to `Ready` either. -/
theorem reconcile_not_ready (u : MediaTrack) (hw : u.worker_state ≠ .Ready) :
    (reconcile u).worker_state ≠ .Ready := by
  unfold reconcile
  split
  · exact hw
  · split <;> simp_all

/-- Claim C4 (corrected): when `load_media_session` returns an error (bad
path, unsupported container, or decoder/scaler setup failure) the worker
emits exactly one `Error(reason)` message — hence no `Initialized` — and
stays sessionless; and a track that is not `Ready` can never become `Ready`
through an `update()` that drains no `Initialized` message.  The original
claim fails for a source with NO VIDEO STREAM: there `load_media_session`
SUCCEEDS with `video: None`, and the worker emits no message at all —
neither `Error` nor `Initialized` (see the counterexample). -/
theorem claim4_load_failure_reporting :
    (∀ st path e,
      handleCommand st (.openErr e) (.Load path) = (st, [.Error e])) ∧
    (∀ st path e,
      handleCommand st (.videoSetupErr e) (.Load path) = (st, [.Error e])) ∧
    (∀ t, t.worker_state ≠ .Ready →
      (∀ m ∈ t.pending_msgs, m.isInitialized = false) →
      (updateTrack t).worker_state ≠ .Ready) := by
  refine ⟨fun st path e => rfl, fun st path e => rfl, fun t hw hm => ?_⟩
  unfold updateTrack
  apply reconcile_not_ready
  show (t.pending_msgs.foldl processMessage t).worker_state ≠ .Ready
  exact foldl_not_ready t.pending_msgs t hw hm

/-- Witness for C4: a failed open on a concrete worker state emits exactly
one error, and the concrete `Loading` track that drains only an `Error`
message does not become `Ready`. -/
theorem claim4_witness :
    handleCommand WorkerState.init (.openErr "No such file or directory")
        (.Load "missing.mp4")
      = (WorkerState.init, [.Error "No such file or directory"]) ∧
    (updateTrack
        { exTrack0 with pending_msgs := [.Error "boom"] }).worker_state
      ≠ .Ready := by
  refine ⟨claim4_load_failure_reporting.1 WorkerState.init "missing.mp4"
    "No such file or directory", ?_⟩
  exact claim4_load_failure_reporting.2.2 _ (by decide) (by decide)

/-- Counterexample to C4 as stated: loading a source with no video stream
emits ZERO messages (in particular not one `Error`), because
`load_media_session` returns `Ok` with `video: None` and the worker's
`if let Some(video)` arm silently skips; the session is nevertheless
installed. -/
theorem claim4_cex :
    (handleCommand WorkerState.init .noVideoStream (.Load "audio.wav")).2
      = ([] : List WorkerMessage) ∧
    (handleCommand WorkerState.init .noVideoStream
        (.Load "audio.wav")).1.session = some ⟨none⟩ := by
  refine ⟨rfl, rfl⟩

/-- Claim C6 (corrected): while decoding is enabled (playing, with session
and pool), a `read_packet` error is reported as exactly one
`Error(reason)` message and is non-fatal — the worker state is unchanged
and the loop proceeds to the next iteration; but a DECODE error inside
`process_packet` is silently discarded by the worker's `if let Ok(outputs)`
— no `Error` message is emitted (also non-fatal).  The original claim fails
on decode errors: they go unreported (see the counterexample). -/
theorem claim6_decode_error_reporting (st : WorkerState) (e d : String)
    (procRes flushRes : Except String (List VideoFrame))
    (hp : st.playing = true) (hs : st.session.isSome = true)
    (hf : st.frame_pool.isSome = true) :
    decodeBody st (.err e) procRes flushRes = (st, [.Error e]) ∧
    decodeBody st .packet (.error d) flushRes = (st, []) := by
  unfold decodeBody
  rw [if_pos ⟨hp, hs, hf⟩, if_pos ⟨hp, hs, hf⟩]
  exact ⟨rfl, rfl⟩

/-- Witness for C6 on the concrete playing worker state. -/
theorem claim6_witness :
    decodeBody exWorkerPlaying (.err "Invalid data found") (.ok []) (.ok [])
      = (exWorkerPlaying, [.Error "Invalid data found"]) ∧
    decodeBody exWorkerPlaying .packet (.error "decode failed") (.ok [])
      = (exWorkerPlaying, []) :=
  claim6_decode_error_reporting exWorkerPlaying "Invalid data found"
    "decode failed" (.ok []) (.ok []) rfl rfl rfl

/-- Counterexample to C6 as stated: a decode error from `process_packet`
while decoding is enabled produces NO message on the worker's channel — in
particular no `Error` — contradicting "no such error goes unreported". -/
theorem claim6_cex :
    (decodeBody exWorkerPlaying .packet (.error "decode failed") (.ok [])).2
      = ([] : List WorkerMessage) := by
  rfl

/-- One admissible pool interaction preserves the claim C2 invariant. -/
theorem stepPool_inv (n size : Nat) (s s' : PoolState) (op : PoolOp)
    (hinv : PoolInv n size s) (hstep : stepPool s op = some s') :
    PoolInv n size s' := by
  obtain ⟨hcap, hlen, hsize⟩ := hinv
  cases op with
  | get =>
    unfold stepPool FramePool.get at hstep
    rcases hfree : s.pool.free with _ | ⟨b, rest⟩ <;> rw [hfree] at hstep
    · exact absurd hstep (by simp)
    · injection hstep with h
      subst h
      refine ⟨hcap, ?_, ?_⟩
      · rw [hfree] at hlen
        simp at hlen ⊢
        omega
      · intro x hx
        apply hsize
        rw [hfree]
        simp at hx ⊢
        tauto
  | recycle i data =>
    simp only [stepPool] at hstep
    rcases hidx : s.outstanding[i]? with _ | b <;> rw [hidx] at hstep
    · exact absurd hstep (by simp)
    · have hi : i < s.outstanding.length := (List.getElem?_eq_some.mp hidx).1
      have hbmem : b ∈ s.outstanding := List.getElem?_mem hidx
      have hbsize : b.length = size := hsize b (by simp [hbmem])
      have hstep2 : (if data.length = b.length then
          match s.pool.recycle data with
          | none => none
          | some p' => some (⟨p', s.outstanding.eraseIdx i⟩ : PoolState)
          else none) = some s' := hstep
      split_ifs at hstep2 with hdl
      · unfold FramePool.recycle at hstep2
        split_ifs at hstep2 with hlt
        · injection hstep2 with h
          subst h
          refine ⟨hcap, ?_, ?_⟩
          · simp only [List.length_append, List.length_singleton]
            rw [List.length_eraseIdx]
            simp [hi]
            omega
          · intro x hx
            simp only [List.mem_append, List.mem_singleton] at hx
            rcases hx with (hx | hx) | hx
            · exact hsize x (by simp [hx])
            · rw [hx, hdl, hbsize]
            · exact hsize x
                (by simp [List.eraseIdx_subset s.outstanding i hx])

/-- Running admissible pool interactions preserves the C2 invariant. -/
theorem runPool_inv (n size : Nat) (ops : List PoolOp) (s s' : PoolState)
    (hinv : PoolInv n size s) (hrun : runPool s ops = some s') :
    PoolInv n size s' := by
  induction ops generalizing s with
  | nil =>
    unfold runPool at hrun
    injection hrun with h
    subst h
    exact hinv
  | cons op ops ih =>
    unfold runPool at hrun
    rcases hstep : stepPool s op with _ | s1 <;> rw [hstep] at hrun
    · exact absurd hrun (by simp)
    · exact ih s1 (stepPool_inv n size s s1 op hinv hstep) hrun

/-- Claim C2 (confirmed): for a pool built by `new(n, size)`, after any
admissible interleaving of `get` and `recycle` operations (where the
recycled buffers are exactly the outstanding ones, length-preserved by
in-place pixel writes), `free_count + outstanding_count = n`; the capacity
stays `n` and every live buffer still has the construction-time `size` —
no buffer is allocated after construction and none is destroyed while
outstanding. -/
theorem claim2_pool_conservation (n size : Nat) (ops : List PoolOp)
    (s : PoolState) (h : runPool ⟨FramePool.new n size, []⟩ ops = some s) :
    s.pool.free.length + s.outstanding.length = n ∧
    s.pool.capacity = n ∧
    (∀ b ∈ s.pool.free ++ s.outstanding, b.length = size) := by
  have hinit : PoolInv n size ⟨FramePool.new n size, []⟩ := by
    refine ⟨rfl, by simp [FramePool.new], ?_⟩
    intro b hb
    simp [FramePool.new] at hb
    rw [hb.2]
    exact List.length_replicate size 0
  have := runPool_inv n size ops _ s hinit h
  exact ⟨this.2.1, this.1, this.2.2⟩

/-- Witness for C2: a get followed by a recycle of the (pixel-written)
buffer on a two-buffer pool of 3-byte frames conserves the counts. -/
theorem claim2_witness :
    runPool ⟨FramePool.new 2 3, []⟩ [.get, .recycle 0 [5, 6, 7]]
        = some exPoolTraceResult ∧
    exPoolTraceResult.pool.free.length
        + exPoolTraceResult.outstanding.length = 2 ∧
    exPoolTraceResult.pool.capacity = 2 ∧
    (∀ b ∈ exPoolTraceResult.pool.free ++ exPoolTraceResult.outstanding,
      b.length = 3) := by
  have h := claim2_pool_conservation 2 3 [.get, .recycle 0 [5, 6, 7]]
    exPoolTraceResult (by decide)
  exact ⟨by decide, h.1, h.2.1, h.2.2⟩

/-- Appending a buffer to the free FIFO makes it the last one handed out. -/
theorem nthGet_append (c : Nat) (l : List (List Nat)) (b : List Nat) :
    FramePool.nthGet ⟨c, l ++ [b]⟩ l.length = some b := by
  induction l with
  | nil => rfl
  | cons a l ih => exact ih

/-- Claim C9 (corrected): `recycle` performs NO size (or provenance) check:
whenever the bounded channel is not full, recycling a buffer of any length
succeeds, the buffer enters the free set at the FIFO's tail, and the
`(free_count + 1)`-th subsequent `get()` returns exactly that buffer.  The
original claim — that a wrong-size buffer is rejected and never returned by
`get()` — fails (see the counterexample). -/
theorem claim9_recycle_unchecked (p : FramePool) (buf : List Nat)
    (h : p.free.length < p.capacity) :
    p.recycle buf = some ⟨p.capacity, p.free ++ [buf]⟩ ∧
    FramePool.nthGet ⟨p.capacity, p.free ++ [buf]⟩ p.free.length
      = some buf := by
  refine ⟨?_, nthGet_append _ _ _⟩
  unfold FramePool.recycle
  rw [if_pos h]

/-- Witness for C9 on the concrete one-free-slot pool and the wrong-size
buffer `[9]`. -/
theorem claim9_witness :
    exPoolP1.recycle [9] = some ⟨2, exPoolP1.free ++ [[9]]⟩ ∧
    FramePool.nthGet ⟨2, exPoolP1.free ++ [[9]]⟩ 1 = some [9] := by
  have h := claim9_recycle_unchecked exPoolP1 [9] (by decide)
  exact ⟨h.1, h.2⟩

/-- Counterexample to C9 as stated: on a fresh `new(2, 3)` pool, after one
`get`, recycling the length-1 buffer `[9]` (frame size is 3) is accepted,
and the second subsequent `get` returns that wrong-size buffer. -/
theorem claim9_cex :
    (FramePool.new 2 3).get = some ([0, 0, 0], exPoolP1) ∧
    exPoolP1.recycle [9] = some exPoolP2 ∧
    exPoolP2.nthGet 1 = some [9] ∧
    ([9] : List Nat).length ≠ 3 := by
  refine ⟨by decide, by decide, by decide, by decide⟩

/-- Rounding bound for the integer core of `av_rescale_rnd`: the computed
quotient is within half a unit (scaled by `c`) of the exact ratio. -/
theorem rescale_core (x c : Int) (hc : 0 < c) :
    2 * |c * ((x + c / 2) / c) - x| ≤ c := by
  have h1 : c * ((x + c / 2) / c) + (x + c / 2) % c = x + c / 2 :=
    Int.ediv_add_emod _ _
  have h2 : 0 ≤ (x + c / 2) % c := Int.emod_nonneg _ (by omega)
  have h3 : (x + c / 2) % c < c := Int.emod_lt_of_pos _ hc
  generalize hq : c * ((x + c / 2) / c) = m at h1 ⊢
  generalize hrr : (x + c / 2) % c = r at h1 h2 h3
  rcases abs_cases (m - x) with ⟨ha, _⟩ | ⟨ha, _⟩ <;> rw [ha] <;> omega

/-- Rounding bound for `av_rescale_rnd_near` including the negative branch. -/
theorem rescale_near_abs (a b c : Int) (hc : 0 < c) :
    2 * |c * av_rescale_rnd_near a b c - a * b| ≤ c := by
  unfold av_rescale_rnd_near
  split
  · have h := rescale_core ((-a) * b) c hc
    generalize hd : ((-a) * b + c / 2) / c = d at h ⊢
    have he : c * -d - a * b = -(c * d - (-a) * b) := by ring
    rw [he, abs_neg]
    exact h
  · exact rescale_core (a * b) c hc

/-- Rational form of the rounding bound: `av_rescale_rnd_near a b c` is
within `1/2` of `a * b / c`. -/
theorem rescale_near_q_bound (a b c : Int) (hc : 0 < c) :
    |(av_rescale_rnd_near a b c : Rat) - (a : Rat) * (b : Rat) / (c : Rat)|
      ≤ 1 / 2 := by
  have h := rescale_near_abs a b c hc
  have habs : |(c : Rat) * (av_rescale_rnd_near a b c : Rat)
      - (a : Rat) * (b : Rat)| * 2 ≤ (c : Rat) := by
    have hcast : ((2 * |c * av_rescale_rnd_near a b c - a * b| : Int) : Rat)
        ≤ ((c : Int) : Rat) := by exact_mod_cast h
    push_cast at hcast
    linarith [hcast]
  have hcq : (0 : Rat) < (c : Rat) := by exact_mod_cast hc
  have hrw : (av_rescale_rnd_near a b c : Rat)
        - (a : Rat) * (b : Rat) / (c : Rat)
      = ((c : Rat) * (av_rescale_rnd_near a b c : Rat)
          - (a : Rat) * (b : Rat)) / (c : Rat) := by
    field_simp
    ring
  rw [hrw, abs_div, abs_of_pos hcq, div_le_div_iff₀ hcq (by norm_num)]
  linarith [habs]

/-- Claim C8 (corrected): `pts_in_seconds(id, pts)` returns `none` exactly
when the track is unknown or its `start_pts` or `time_base` has not been
received; otherwise (for a positive stream time base) it returns a value
within half a microsecond (`1/2000000` s) of the exact conversion
`(pts - start_pts) * time_base` — namely the microsecond count obtained by
ffmpeg's round-half-away-from-zero rescale, divided by `10^6`.  Exact
equality with the time-base conversion, as the original claim states it,
fails in general because of the microsecond rounding (see the
counterexample). -/
theorem claim8_pts_in_seconds (e : MediaEngine) (id : TrackId) (pts : Int) :
    (e.pts_in_seconds id pts = none ↔
      e.getTrack id = none ∨
        ∃ t, e.getTrack id = some t ∧
          (t.start_pts = none ∨ t.time_base = none)) ∧
    (∀ t tb s0, e.getTrack id = some t → t.time_base = some tb →
      t.start_pts = some s0 → 0 < tb.num → 0 < tb.den →
      ∃ q, e.pts_in_seconds id pts = some q ∧
        |q - ((pts - s0 : Int) : Rat) * ((tb.num : Rat) / (tb.den : Rat))|
          ≤ 1 / 2000000) := by
  constructor
  · rcases h : e.getTrack id with _ | t
    · simp [MediaEngine.pts_in_seconds, h]
    · rcases hs : t.start_pts with _ | s0
      · simp [MediaEngine.pts_in_seconds, h, hs]
      · rcases htb : t.time_base with _ | tb
        · simp [MediaEngine.pts_in_seconds, h, hs, htb]
        · simp [MediaEngine.pts_in_seconds, h, hs, htb]
  · intro t tb s0 ht htb hs hnum hden
    refine ⟨(av_rescale_q (pts - s0) tb TIME_BASE : Rat) / 1000000, ?_, ?_⟩
    · simp [MediaEngine.pts_in_seconds, ht, hs, htb]
    · have hq : av_rescale_q (pts - s0) tb TIME_BASE
          = av_rescale_rnd_near (pts - s0) (tb.num * 1000000) (1 * tb.den) :=
        rfl
      have hc : (0 : Int) < 1 * tb.den := by omega
      have key := rescale_near_q_bound (pts - s0) (tb.num * 1000000)
        (1 * tb.den) hc
      have hden0 : (tb.den : Rat) ≠ 0 := by
        exact_mod_cast (by omega : tb.den ≠ 0)
      have hsplit : (av_rescale_q (pts - s0) tb TIME_BASE : Rat) / 1000000
            - ((pts - s0 : Int) : Rat) * ((tb.num : Rat) / (tb.den : Rat))
          = ((av_rescale_rnd_near (pts - s0) (tb.num * 1000000)
                (1 * tb.den) : Rat)
              - ((pts - s0 : Int) : Rat) * ((tb.num * 1000000 : Int) : Rat)
                  / ((1 * tb.den : Int) : Rat)) / 1000000 := by
        rw [hq]
        push_cast
        field_simp
        ring
      rw [hsplit, abs_div, abs_of_pos (by norm_num : (0 : Rat) < 1000000)]
      have habs := abs_nonneg ((av_rescale_rnd_near (pts - s0)
        (tb.num * 1000000) (1 * tb.den) : Rat)
          - ((pts - s0 : Int) : Rat) * ((tb.num * 1000000 : Int) : Rat)
              / ((1 * tb.den : Int) : Rat))
      linarith [key]

/-- Witness for C8 on the concrete track with time base 1/3 and start 0. -/
theorem claim8_witness :
    ∃ q, exEngineGeom.pts_in_seconds exId 1 = some q ∧
      |q - ((1 - 0 : Int) : Rat) * ((exTb.num : Rat) / (exTb.den : Rat))|
        ≤ 1 / 2000000 :=
  (claim8_pts_in_seconds exEngineGeom exId 1).2 exTrackGeom exTb 0
    (by decide) (by decide) (by decide) (by decide) (by decide)

/-- Counterexample to C8 as stated: with time base 1/3 and start 0, a pts
of 1 converts exactly to 1/3 s, but the code returns 333333/1000000 s (the
microsecond-rounded value), which is not equal to it. -/
theorem claim8_cex :
    exEngineGeom.pts_in_seconds exId 1 = some (333333 / 1000000 : Rat) ∧
    (333333 / 1000000 : Rat)
      ≠ ((1 - 0 : Int) : Rat) * ((1 : Rat) / (3 : Rat)) := by
  constructor
  · have ht : exEngineGeom.getTrack exId = some exTrackGeom := by decide
    have hval : av_rescale_q 1 exTb TIME_BASE = 333333 := by decide
    simp [MediaEngine.pts_in_seconds, ht, exTrackGeom, exTrack0, hval]
  · norm_num
